import Mathlib

/-!
# Lane simulation of GGP_Project (`DX11Starter/Lane.cpp`)

A shallow embedding of `Lane::Lane`, `Lane::SpawnEnemy`, `Lane::SpawnProj` and
`Lane::Update`, followed by the properties of the lane state machine.

Modelling conventions.

* `float` quantities (depths, timer, `deltaTime`, `totalTime`, `random`) are rationals,
  with exact arithmetic.
* The `int` counters are integers.  The only arithmetic on them is `++`; no wrap-around
  is modelled (signed overflow is undefined in C++, and on the runs that return a lane
  built by the constructor keeps `deadEnemies ≤ spawnedEnemies ≤ maxEnemies`).
* `std::vector<Enemy*>` / `std::vector<Projectile*>` are lists of the pointed-to objects,
  oldest first.  `v[0]` and `v.erase(v.begin())` are partial: they fail on the empty
  list, and the whole `Update` then has no result (`none`).  `Lane.UpdateLax` is the
  same method for a build in which `erase` on an empty vector returns and leaves it
  empty; it agrees with `Lane.Update` wherever that one has a result.
* The locals `Enemy* enemy` / `Projectile* proj` of `Update` are `Option` values:
  `none` is `nullptr`.  `delete` does not reset them, so after the boundary block they
  still designate the object that was read at index 0; a later `getDepth()` through
  them yields the depth that object had.  Memory release itself is not modelled.
* `Enemy::Update` and `Projectile::Update` are not part of the translated sources; the
  motion law is a parameter (`Motion`).
-/

namespace GGP

/-- An enemy: the position handed to its constructor, `depth` being `getDepth()`. -/
structure Enemy where
  x : ℚ
  y : ℚ
  depth : ℚ
deriving DecidableEq, Repr

/-- A projectile: the position handed to its constructor, `depth` being `getDepth()`. -/
structure Projectile where
  x : ℚ
  y : ℚ
  depth : ℚ
deriving DecidableEq, Repr

/-- The motion law: `Enemy::Update(deltaTime, totalTime)` and
`Projectile::Update(deltaTime, totalTime)`, which are outside the translated sources. -/
structure Motion where
  enemy : ℚ → ℚ → Enemy → Enemy
  proj : ℚ → ℚ → Projectile → Projectile

/-- The data members of `Lane` that the simulation reads or writes. -/
structure Lane where
  posX : ℚ
  posY : ℚ
  depth : ℚ
  aberrateTimer : ℚ
  maxEnemies : Int
  spawnedEnemies : Int
  deadEnemies : Int
  clear : Bool
  enemies : List Enemy
  projs : List Projectile
deriving DecidableEq, Repr

/-- The element `v[0]` of a vector; no result on the empty vector. -/
def front {α : Type} : List α → Option α
  | [] => none
  | a :: _ => some a

/-- The vector after `v.erase(v.begin())`; no result on the empty vector. -/
def eraseBegin {α : Type} : List α → Option (List α)
  | [] => none
  | _ :: rest => some rest

/-- The constructor `Lane::Lane(pos, depth, maxEnemies, ...)` (Lane.cpp 3-16). -/
def Lane.new (posX posY depth : ℚ) (maxEnemies : Int) : Lane :=
  { posX := posX
    posY := posY
    depth := depth
    aberrateTimer := 0
    maxEnemies := maxEnemies
    spawnedEnemies := 0
    deadEnemies := 0
    clear := false
    enemies := []
    projs := [] }

/-- The method `Lane::SpawnEnemy` (Lane.cpp 26-30): `push_back` of an enemy at
`(pos.x, pos.y, depth)`. -/
def Lane.SpawnEnemy (l : Lane) : Lane :=
  { l with enemies := l.enemies ++ [{ x := l.posX, y := l.posY, depth := l.depth }] }

/-- The method `Lane::SpawnProj` (Lane.cpp 32-36): `push_back` of a projectile at
`(pos.x, pos.y, 0)`. -/
def Lane.SpawnProj (l : Lane) : Lane :=
  { l with projs := l.projs ++ [{ x := l.posX, y := l.posY, depth := 0 }] }

/-- Lane.cpp 45-49: the gated spawn at the start of `Update`. -/
def Lane.spawnStep (random : ℚ) (l : Lane) : Lane :=
  if random = 1 ∧ l.spawnedEnemies < l.maxEnemies then
    let l1 := l.SpawnEnemy
    { l1 with spawnedEnemies := l1.spawnedEnemies + 1 }
  else l

/-- Lane.cpp 52-76: every enemy, then every projectile, is updated in place. -/
def Lane.moveStep (mv : Motion) (deltaTime totalTime : ℚ) (l : Lane) : Lane :=
  { l with
    enemies := l.enemies.map (mv.enemy deltaTime totalTime)
    projs := l.projs.map (mv.proj deltaTime totalTime) }

/-- Lane.cpp 86-92: the local `proj` and the projectile bound.  Returns the value of
`proj` after the block together with the lane. -/
def Lane.cullProj (l : Lane) : Option (Option Projectile × Lane) :=
  if l.projs.length > 0 then do
    let proj ← front l.projs
    if proj.depth > l.depth then do
      let rest ← eraseBegin l.projs
      pure (some proj, { l with projs := rest })
    else
      pure (some proj, l)
  else
    pure (none, l)

/-- Lane.cpp 85, 93-103: the local `enemy` and the enemy bound, with the bump and the
cap of the aberration timer.  Returns the value of `enemy` after the block together
with the lane. -/
def Lane.cullEnemy (l : Lane) : Option (Option Enemy × Lane) :=
  if l.enemies.length > 0 then do
    let enemy ← front l.enemies
    if enemy.depth < 0 then do
      let rest ← eraseBegin l.enemies
      let t := l.aberrateTimer + 1
      let t := if t ≥ 3 then 3 else t
      pure (some enemy,
        { l with enemies := rest, deadEnemies := l.deadEnemies + 1, aberrateTimer := t })
    else
      pure (some enemy, l)
  else
    pure (none, l)

/-- Lane.cpp 105-108: the timer decay. -/
def Lane.decayTimer (deltaTime : ℚ) (l : Lane) : Lane :=
  if l.aberrateTimer > 0 then { l with aberrateTimer := l.aberrateTimer - deltaTime }
  else l

/-- Lane.cpp 110-121: the collision block, on the locals `enemy` and `proj`. -/
def Lane.collide (enemy : Option Enemy) (proj : Option Projectile) (l : Lane) :
    Option Lane :=
  match enemy, proj with
  | some e, some p =>
    if p.depth + 2 ≥ e.depth then do
      let ps ← eraseBegin l.projs
      let es ← eraseBegin l.enemies
      pure { l with projs := ps, enemies := es, deadEnemies := l.deadEnemies + 1 }
    else
      pure l
  | _, _ => pure l

/-- Lane.cpp 123-126: the clear flag. -/
def Lane.markClear (l : Lane) : Lane :=
  if l.deadEnemies = l.maxEnemies then { l with clear := true } else l

/-- The method `Lane::Update(deltaTime, totalTime, random)` (Lane.cpp 38-127). -/
def Lane.Update (mv : Motion) (deltaTime totalTime random : ℚ) (l : Lane) :
    Option Lane := do
  let l1 := l.spawnStep random
  let l2 := l1.moveStep mv deltaTime totalTime
  let (proj, l3) ← l2.cullProj
  let (enemy, l4) ← l3.cullEnemy
  let l5 := l4.decayTimer deltaTime
  let l6 ← l5.collide enemy proj
  pure l6.markClear

/-- A call made on a lane by its owner: `Update` with its arguments or `SpawnProj`. -/
inductive Call where
  | update (deltaTime totalTime random : ℚ)
  | spawnProj
deriving DecidableEq, Repr

/-- One call. -/
def Lane.step (mv : Motion) (l : Lane) : Call → Option Lane
  | .update deltaTime totalTime random => l.Update mv deltaTime totalTime random
  | .spawnProj => some l.SpawnProj

/-- A sequence of calls, first call first; no result once a call has none. -/
def Lane.run (mv : Motion) (l : Lane) : List Call → Option Lane
  | [] => some l
  | c :: cs => (l.step mv c).bind fun l1 => l1.run mv cs

/-- The `deltaTime` of a call (`0` for `SpawnProj`, which takes none). -/
def Call.deltaTime : Call → ℚ
  | .update deltaTime _ _ => deltaTime
  | .spawnProj => 0

/-- A linear motion law: enemies lose `deltaTime` of depth, projectiles gain it. -/
def Motion.linear : Motion :=
  { enemy := fun deltaTime _ e => { e with depth := e.depth - deltaTime }
    proj := fun deltaTime _ p => { p with depth := p.depth + deltaTime } }

/-- The lane as the boundary block of `Update` finds it: after the spawn decision and
the motion of every enemy and projectile (Lane.cpp 45-76). -/
def Lane.afterMotion (mv : Motion) (deltaTime totalTime random : ℚ) (l : Lane) : Lane :=
  (l.spawnStep random).moveStep mv deltaTime totalTime

/-- The aberration timer after the bump and cap of Lane.cpp 99-101 applied to `t`. -/
def bumpTimer (t : ℚ) : ℚ :=
  if t + 1 ≥ 3 then 3 else t + 1

/-- The aberration timer after the decay of Lane.cpp 106-108 applied to `t`. -/
def decay (deltaTime t : ℚ) : ℚ :=
  if t > 0 then t - deltaTime else t

/-- The body of `Update` from the boundary block on (Lane.cpp 85-126). -/
def Lane.resolve (deltaTime : ℚ) (m : Lane) : Option Lane :=
  m.cullProj.bind fun a =>
    a.2.cullEnemy.bind fun b =>
      ((b.2.decayTimer deltaTime).collide b.1 a.1).bind fun c => some c.markClear

/-- The bookkeeping of a lane whose enemies were all spawned by `Update`: every spawned
enemy is either dead or still in the collection, the cap is respected, and the clear
flag is only set once the quota is reached. -/
def Lane.Inv (l : Lane) : Prop :=
  l.deadEnemies + l.enemies.length = l.spawnedEnemies ∧
  l.spawnedEnemies ≤ l.maxEnemies ∧
  (l.clear = true → l.deadEnemies = l.maxEnemies)

/-! ## Sample lanes and call sequences -/

/-- A sample run: two enemies spawned, one shot down, one reaching the player. -/
def sampleCalls : List Call :=
  [.update 1 1 1, .spawnProj, .update 1 2 1, .update 6 8 0, .update 4 12 0]

/-- The lane that `sampleCalls` leaves behind, from `Lane.new 0 0 10 2`. -/
def sampleLane : Lane :=
  { posX := 0, posY := 0, depth := 10, aberrateTimer := -3, maxEnemies := 2,
    spawnedEnemies := 2, deadEnemies := 2, clear := true, enemies := [], projs := [] }

/-- A motion law under which an enemy loses 20 of depth at every update, whatever the
time step, and projectiles stay where they are. -/
def Motion.rush : Motion :=
  { enemy := fun _ _ e => { e with depth := e.depth - 20 }
    proj := fun _ _ p => p }

/-- Four updates with time step 0, each of which spawns an enemy. -/
def rushCalls : List Call :=
  [.update 0 0 1, .update 0 0 1, .update 0 0 1, .update 0 0 1]

/-- The lane that `rushCalls` leaves behind under `Motion.rush`, from `Lane.new 0 0 10 4`. -/
def rushLane : Lane :=
  { posX := 0, posY := 0, depth := 10, aberrateTimer := 3, maxEnemies := 4,
    spawnedEnemies := 4, deadEnemies := 4, clear := true, enemies := [], projs := [] }

/-- The spec's boundary scenario: `maxEnemies = 1`, one enemy spawned at depth 5, no
projectile.  It is the lane that `Update 0 0 1` makes of `Lane.new 0 0 5 1`. -/
def scenarioLane : Lane :=
  { posX := 0, posY := 0, depth := 5, aberrateTimer := 0, maxEnemies := 1,
    spawnedEnemies := 1, deadEnemies := 0, clear := false,
    enemies := [{ x := 0, y := 0, depth := 5 }], projs := [] }

/-- The lane reached from `Lane.new 0 0 1 1` by an `Update` that spawns the enemy and a
`SpawnProj`: the enemy is at depth 1/2, the projectile at depth 0. -/
def lateShotLane : Lane :=
  { posX := 0, posY := 0, depth := 1, aberrateTimer := 0, maxEnemies := 1,
    spawnedEnemies := 1, deadEnemies := 0, clear := false,
    enemies := [{ x := 0, y := 0, depth := 1 / 2 }], projs := [{ x := 0, y := 0, depth := 0 }] }

/-- The lane reached from `Lane.new 0 0 10 1` by `SpawnProj`, `Update 8 0 0` and
`SpawnProj`: no enemy yet, projectiles at depths 8 and 0. -/
def twoShotsLane : Lane :=
  { posX := 0, posY := 0, depth := 10, aberrateTimer := 0, maxEnemies := 1,
    spawnedEnemies := 0, deadEnemies := 0, clear := false,
    enemies := [],
    projs := [{ x := 0, y := 0, depth := 8 }, { x := 0, y := 0, depth := 0 }] }

/-- A lane with no enemy and two projectiles, at depths 8 and 3, all enemies spawned. -/
def missLane : Lane :=
  { posX := 0, posY := 0, depth := 10, aberrateTimer := 0, maxEnemies := 1,
    spawnedEnemies := 1, deadEnemies := 1, clear := true,
    enemies := [],
    projs := [{ x := 0, y := 0, depth := 8 }, { x := 0, y := 0, depth := 3 }] }

/-- A lane with an enemy at depth 6 and a projectile at depth 1. -/
def duelLane : Lane :=
  { posX := 0, posY := 0, depth := 10, aberrateTimer := 0, maxEnemies := 2,
    spawnedEnemies := 1, deadEnemies := 0, clear := false,
    enemies := [{ x := 0, y := 0, depth := 6 }], projs := [{ x := 0, y := 0, depth := 1 }] }

/-! ## The collision block when `erase` on an empty vector returns -/

/-- The vector after `v.erase(v.begin())` in a build in which that call returns on an
empty vector: an empty vector stays empty. -/
def eraseBeginLax {α : Type} : List α → List α
  | [] => []
  | _ :: rest => rest

/-- Lane.cpp 110-121 with `eraseBeginLax` for the two `erase` calls: every statement of
the block runs, whatever the collections hold. -/
def Lane.collideLax (enemy : Option Enemy) (proj : Option Projectile) (l : Lane) : Lane :=
  match enemy, proj with
  | some e, some p =>
    if p.depth + 2 ≥ e.depth then
      { l with
        projs := eraseBeginLax l.projs
        enemies := eraseBeginLax l.enemies
        deadEnemies := l.deadEnemies + 1 }
    else
      l
  | _, _ => l

/-- The method `Lane::Update` (Lane.cpp 38-127) with `eraseBeginLax` in the collision
block: the same statements in the same order as `Lane.Update`. -/
def Lane.UpdateLax (mv : Motion) (deltaTime totalTime random : ℚ) (l : Lane) :
    Option Lane := do
  let l1 := l.spawnStep random
  let l2 := l1.moveStep mv deltaTime totalTime
  let (proj, l3) ← l2.cullProj
  let (enemy, l4) ← l3.cullEnemy
  let l5 := l4.decayTimer deltaTime
  let l6 := l5.collideLax enemy proj
  pure l6.markClear

/-! ## Phase lemmas -/

theorem spawnStep_fields (random : ℚ) (l : Lane) :
    (l.spawnStep random).deadEnemies = l.deadEnemies ∧
    (l.spawnStep random).maxEnemies = l.maxEnemies ∧
    (l.spawnStep random).clear = l.clear ∧
    (l.spawnStep random).aberrateTimer = l.aberrateTimer ∧
    (l.spawnStep random).depth = l.depth ∧
    (l.spawnStep random).projs = l.projs := by
  unfold Lane.spawnStep Lane.SpawnEnemy
  split_ifs <;> simp

theorem afterMotion_fields (mv : Motion) (deltaTime totalTime random : ℚ) (l : Lane) :
    (l.afterMotion mv deltaTime totalTime random).deadEnemies = l.deadEnemies ∧
    (l.afterMotion mv deltaTime totalTime random).maxEnemies = l.maxEnemies ∧
    (l.afterMotion mv deltaTime totalTime random).clear = l.clear ∧
    (l.afterMotion mv deltaTime totalTime random).aberrateTimer = l.aberrateTimer ∧
    (l.afterMotion mv deltaTime totalTime random).depth = l.depth ∧
    (l.afterMotion mv deltaTime totalTime random).spawnedEnemies
      = (l.spawnStep random).spawnedEnemies ∧
    (l.afterMotion mv deltaTime totalTime random).enemies.length
      = (l.spawnStep random).enemies.length ∧
    (l.afterMotion mv deltaTime totalTime random).projs.length = l.projs.length := by
  have h := spawnStep_fields random l
  simp [Lane.afterMotion, Lane.moveStep, h]

theorem decayTimer_eq (deltaTime : ℚ) (l : Lane) :
    l.decayTimer deltaTime = { l with aberrateTimer := decay deltaTime l.aberrateTimer } := by
  unfold Lane.decayTimer decay
  split_ifs <;> rfl

theorem markClear_eq (l : Lane) :
    l.markClear = { l with clear := l.clear || decide (l.deadEnemies = l.maxEnemies) } := by
  unfold Lane.markClear
  split_ifs with h <;> simp [h]

theorem cullProj_eq (l : Lane) :
    l.cullProj = match l.projs with
      | [] => some (none, l)
      | p :: ps => some (some p, if p.depth > l.depth then { l with projs := ps } else l) := by
  obtain ⟨px, py, d, t, mx, sp, dd, cl, es, ps⟩ := l
  rcases ps with _ | ⟨p, ps⟩
  · simp [Lane.cullProj]
  · simp only [Lane.cullProj, front, eraseBegin]
    split_ifs <;> simp_all

theorem cullEnemy_eq (l : Lane) :
    l.cullEnemy = match l.enemies with
      | [] => some (none, l)
      | e :: es => some (some e,
          if e.depth < 0 then
            { l with
              enemies := es
              deadEnemies := l.deadEnemies + 1
              aberrateTimer := bumpTimer l.aberrateTimer }
          else l) := by
  obtain ⟨px, py, d, t, mx, sp, dd, cl, es, ps⟩ := l
  rcases es with _ | ⟨e, es⟩
  · simp [Lane.cullEnemy]
  · simp only [Lane.cullEnemy, front, eraseBegin, bumpTimer]
    split_ifs <;> simp_all

theorem Update_eq_resolve (mv : Motion) (deltaTime totalTime random : ℚ) (l : Lane) :
    l.Update mv deltaTime totalTime random
      = (l.afterMotion mv deltaTime totalTime random).resolve deltaTime := rfl

set_option maxHeartbeats 4000000 in
/-- What one `Update` that returns does to the counters and the clear flag. -/
theorem Update_facts {mv : Motion} {deltaTime totalTime random : ℚ} {l r : Lane}
    (hu : l.Update mv deltaTime totalTime random = some r) :
    r.maxEnemies = l.maxEnemies ∧
    r.depth = l.depth ∧
    r.spawnedEnemies = (l.spawnStep random).spawnedEnemies ∧
    r.deadEnemies + r.enemies.length
      = l.deadEnemies + (l.spawnStep random).enemies.length ∧
    l.deadEnemies ≤ r.deadEnemies ∧
    r.clear = (l.clear || decide (r.deadEnemies = r.maxEnemies)) ∧
    (r.aberrateTimer = decay deltaTime l.aberrateTimer ∨
      r.aberrateTimer = decay deltaTime (bumpTimer l.aberrateTimer)) := by
  obtain ⟨h1, h2, h3, h4, h5, h6, h7, -⟩ := afterMotion_fields mv deltaTime totalTime random l
  rw [← h1, ← h2, ← h3, ← h4, ← h5, ← h6, ← h7]
  rw [Update_eq_resolve] at hu
  clear h1 h2 h3 h4 h5 h6 h7
  generalize l.afterMotion mv deltaTime totalTime random = m at hu
  obtain ⟨px, py, d, t, mx, sp, dd, cl, es, ps⟩ := m
  rcases es with _ | ⟨e, es⟩ <;> rcases ps with _ | ⟨p, ps⟩
  · simp [Lane.resolve, cullProj_eq, cullEnemy_eq, Lane.collide, decayTimer_eq,
      markClear_eq] at hu
    subst hu
    simp
  · by_cases hp : p.depth > d <;>
      simp [Lane.resolve, cullProj_eq, cullEnemy_eq, Lane.collide, decayTimer_eq,
        markClear_eq, hp] at hu <;> subst hu <;> simp
  · by_cases he : e.depth < 0 <;>
      simp [Lane.resolve, cullProj_eq, cullEnemy_eq, Lane.collide, decayTimer_eq,
        markClear_eq, he] at hu <;> subst hu <;> simp
    omega
  · rcases es with _ | ⟨e2, es⟩ <;> rcases ps with _ | ⟨p2, ps⟩ <;>
      by_cases hp : p.depth > d <;> by_cases he : e.depth < 0 <;>
      by_cases hc : p.depth + 2 ≥ e.depth <;>
      simp [Lane.resolve, cullProj_eq, cullEnemy_eq, Lane.collide, decayTimer_eq,
        markClear_eq, hp, he, hc, eraseBegin] at hu <;> subst hu <;> simp <;> omega

theorem spawnStep_counts (random : ℚ) (l : Lane) :
    (l.spawnStep random).spawnedEnemies
      = l.spawnedEnemies + (if random = 1 ∧ l.spawnedEnemies < l.maxEnemies then 1 else 0) ∧
    ((l.spawnStep random).enemies.length : Int)
      = l.enemies.length + (if random = 1 ∧ l.spawnedEnemies < l.maxEnemies then 1 else 0) := by
  unfold Lane.spawnStep Lane.SpawnEnemy
  split_ifs <;> simp

theorem bumpTimer_le (t : ℚ) : bumpTimer t ≤ 3 := by
  unfold bumpTimer
  split_ifs with h
  · exact le_refl _
  · exact le_of_lt (not_le.mp h)

theorem bumpTimer_eq_min (t : ℚ) : bumpTimer t = min (t + 1) 3 := by
  unfold bumpTimer
  split_ifs with h
  · exact (min_eq_right h).symm
  · exact (min_eq_left (le_of_lt (not_le.mp h))).symm

theorem decay_le {deltaTime : ℚ} (h : 0 ≤ deltaTime) (t : ℚ) : decay deltaTime t ≤ t := by
  unfold decay
  split_ifs <;> linarith

/-! ## Invariants of the call sequence -/

theorem new_inv (posX posY depth : ℚ) {maxEnemies : Int} (h : 0 ≤ maxEnemies) :
    (Lane.new posX posY depth maxEnemies).Inv := by
  simp [Lane.Inv, Lane.new, h]

theorem Update_inv {mv : Motion} {deltaTime totalTime random : ℚ} {l r : Lane}
    (hinv : l.Inv) (hu : l.Update mv deltaTime totalTime random = some r) : r.Inv := by
  obtain ⟨h1, -, h3, h4, h5, h6, -⟩ := Update_facts hu
  obtain ⟨c1, c2⟩ := spawnStep_counts random l
  obtain ⟨i1, i2, i3⟩ := hinv
  rw [c1] at h3
  rw [c2] at h4
  refine ⟨?_, ?_, ?_⟩
  · split_ifs at h3 h4 <;> omega
  · split_ifs at h3 h4 with hc <;> omega
  · intro hcl
    rw [h6] at hcl
    by_cases hq : r.deadEnemies = r.maxEnemies
    · exact hq
    · have hl : l.clear = true := by simpa [hq] using hcl
      have := i3 hl
      split_ifs at h3 h4 with hc <;> omega

theorem step_inv {mv : Motion} {l r : Lane} {c : Call}
    (hinv : l.Inv) (hs : l.step mv c = some r) : r.Inv ∧ r.maxEnemies = l.maxEnemies := by
  cases c with
  | update deltaTime totalTime random =>
    exact ⟨Update_inv hinv hs, (Update_facts hs).1⟩
  | spawnProj =>
    simp only [Lane.step, Option.some.injEq] at hs
    subst hs
    exact ⟨hinv, rfl⟩

theorem run_inv {mv : Motion} (calls : List Call) {l r : Lane}
    (hinv : l.Inv) (hr : l.run mv calls = some r) : r.Inv ∧ r.maxEnemies = l.maxEnemies := by
  induction calls generalizing l with
  | nil =>
    simp only [Lane.run, Option.some.injEq] at hr
    subst hr
    exact ⟨hinv, rfl⟩
  | cons c cs ih =>
    simp only [Lane.run, Option.bind_eq_some] at hr
    obtain ⟨m, hm, hrest⟩ := hr
    obtain ⟨hmi, hmm⟩ := step_inv hinv hm
    obtain ⟨hri, hrm⟩ := ih hmi hrest
    exact ⟨hri, hrm.trans hmm⟩

theorem step_timer {mv : Motion} {l r : Lane} {c : Call} (hdt : 0 ≤ c.deltaTime)
    (ht : l.aberrateTimer ≤ 3) (hs : l.step mv c = some r) : r.aberrateTimer ≤ 3 := by
  cases c with
  | update deltaTime totalTime random =>
    have hd : 0 ≤ deltaTime := hdt
    rcases (Update_facts hs).2.2.2.2.2.2 with h | h
    · rw [h]
      exact (decay_le hd _).trans ht
    · rw [h]
      exact (decay_le hd _).trans (bumpTimer_le _)
  | spawnProj =>
    simp only [Lane.step, Option.some.injEq] at hs
    subst hs
    exact ht

/-! ## The boundary and collision blocks on a lane of known shape -/

theorem resolve_no_enemy (deltaTime : ℚ) {m : Lane} (he : m.enemies = []) :
    ∃ r, m.resolve deltaTime = some r ∧ r.enemies = [] ∧
      r.deadEnemies = m.deadEnemies ∧ r.spawnedEnemies = m.spawnedEnemies ∧
      r.clear = (m.clear || decide (m.deadEnemies = m.maxEnemies)) ∧
      r.projs = match m.projs with
        | [] => []
        | p :: ps => if p.depth > m.depth then ps else p :: ps := by
  obtain ⟨px, py, d, t, mx, sp, dd, cl, es, ps⟩ := m
  simp only at he
  subst he
  rcases ps with _ | ⟨p, ps⟩
  · simp [Lane.resolve, cullProj_eq, cullEnemy_eq, Lane.collide, decayTimer_eq, markClear_eq]
  · by_cases hp : p.depth > d <;>
      simp [Lane.resolve, cullProj_eq, cullEnemy_eq, Lane.collide, decayTimer_eq,
        markClear_eq, hp]

theorem resolve_no_proj_cull (deltaTime : ℚ) {m : Lane} {e : Enemy} {es : List Enemy}
    (hp : m.projs = []) (he : m.enemies = e :: es) (hneg : e.depth < 0) :
    m.resolve deltaTime = some
      { m with
        enemies := es
        deadEnemies := m.deadEnemies + 1
        aberrateTimer := decay deltaTime (bumpTimer m.aberrateTimer)
        clear := m.clear || decide (m.deadEnemies + 1 = m.maxEnemies) } := by
  obtain ⟨px, py, d, t, mx, sp, dd, cl, es1, ps⟩ := m
  simp only at hp he
  subst hp he
  simp [Lane.resolve, cullProj_eq, cullEnemy_eq, Lane.collide, decayTimer_eq, markClear_eq,
    hneg]

theorem resolve_pair (deltaTime : ℚ) {m : Lane} {e : Enemy} {es : List Enemy}
    {p : Projectile} {ps : List Projectile}
    (he : m.enemies = e :: es) (hp : m.projs = p :: ps)
    (hin : p.depth ≤ m.depth) (hpos : 0 ≤ e.depth) :
    m.resolve deltaTime = some
      (if p.depth + 2 ≥ e.depth then
        { m with
          enemies := es
          projs := ps
          deadEnemies := m.deadEnemies + 1
          aberrateTimer := decay deltaTime m.aberrateTimer
          clear := m.clear || decide (m.deadEnemies + 1 = m.maxEnemies) }
      else
        { m with
          aberrateTimer := decay deltaTime m.aberrateTimer
          clear := m.clear || decide (m.deadEnemies = m.maxEnemies) }) := by
  obtain ⟨px, py, d, t, mx, sp, dd, cl, es1, ps1⟩ := m
  simp only at hp he hin
  subst hp he
  have h1 : ¬ d < p.depth := not_lt.mpr hin
  have h2 : ¬ e.depth < 0 := not_lt.mpr hpos
  by_cases hc : p.depth + 2 ≥ e.depth <;>
    simp [Lane.resolve, cullProj_eq, cullEnemy_eq, Lane.collide, decayTimer_eq, markClear_eq,
      h1, h2, hc, eraseBegin]

/-- The boundary block culls the head projectile and the collision block then works
with the stale local `proj`. -/
theorem resolve_stale_proj (deltaTime : ℚ) {m : Lane} {e : Enemy} {es : List Enemy}
    {p : Projectile} {ps : List Projectile}
    (he : m.enemies = e :: es) (hp : m.projs = p :: ps)
    (hout : p.depth > m.depth) (hpos : 0 ≤ e.depth) :
    m.resolve deltaTime =
      if p.depth + 2 ≥ e.depth then
        (eraseBegin ps).map fun rest =>
          { m with
            enemies := es
            projs := rest
            deadEnemies := m.deadEnemies + 1
            aberrateTimer := decay deltaTime m.aberrateTimer
            clear := m.clear || decide (m.deadEnemies + 1 = m.maxEnemies) }
      else
        some { m with
          projs := ps
          aberrateTimer := decay deltaTime m.aberrateTimer
          clear := m.clear || decide (m.deadEnemies = m.maxEnemies) } := by
  obtain ⟨px, py, d, t, mx, sp, dd, cl, es1, ps1⟩ := m
  simp only at hp he hout
  subst hp he
  have h2 : ¬ e.depth < 0 := not_lt.mpr hpos
  by_cases hc : p.depth + 2 ≥ e.depth <;> rcases ps with _ | ⟨p2, ps⟩ <;>
    simp [Lane.resolve, cullProj_eq, cullEnemy_eq, Lane.collide, decayTimer_eq, markClear_eq,
      hout, h2, hc, eraseBegin]

set_option maxHeartbeats 4000000 in
/-- The only way `Update` has no result: the collision test succeeds on a pair of
locals of which one designates an element the boundary block has just removed, and that
element was the last of its collection. -/
theorem resolve_eq_none_iff (deltaTime : ℚ) (m : Lane) :
    m.resolve deltaTime = none ↔
      match m.enemies, m.projs with
      | e :: es, p :: ps =>
        p.depth + 2 ≥ e.depth ∧ ((p.depth > m.depth ∧ ps = []) ∨ (e.depth < 0 ∧ es = []))
      | _, _ => False := by
  obtain ⟨px, py, d, t, mx, sp, dd, cl, es, ps⟩ := m
  rcases es with _ | ⟨e, es⟩ <;> rcases ps with _ | ⟨p, ps⟩
  · simp [Lane.resolve, cullProj_eq, cullEnemy_eq, Lane.collide]
  · by_cases hp : p.depth > d <;>
      simp [Lane.resolve, cullProj_eq, cullEnemy_eq, Lane.collide, hp]
  · by_cases he : e.depth < 0 <;>
      simp [Lane.resolve, cullProj_eq, cullEnemy_eq, Lane.collide, he]
  · rcases es with _ | ⟨e2, es⟩ <;> rcases ps with _ | ⟨p2, ps⟩ <;>
      by_cases hp : p.depth > d <;> by_cases he : e.depth < 0 <;>
      by_cases hc : p.depth + 2 ≥ e.depth <;>
      simp [Lane.resolve, cullProj_eq, cullEnemy_eq, Lane.collide, decayTimer_eq,
        hp, he, hc, eraseBegin]

/-- When `Update` has no result, in terms of the lane after the motion step. -/
theorem Update_eq_none_iff (mv : Motion) (deltaTime totalTime random : ℚ) (l : Lane) :
    l.Update mv deltaTime totalTime random = none ↔
      match (l.afterMotion mv deltaTime totalTime random).enemies,
        (l.afterMotion mv deltaTime totalTime random).projs with
      | e :: es, p :: ps =>
        p.depth + 2 ≥ e.depth ∧ ((p.depth > l.depth ∧ ps = []) ∨ (e.depth < 0 ∧ es = []))
      | _, _ => False := by
  rw [Update_eq_resolve, resolve_eq_none_iff,
    (afterMotion_fields mv deltaTime totalTime random l).2.2.2.2.1]

/-! ## Sample runs -/

theorem sample_run : (Lane.new 0 0 10 2).run Motion.linear sampleCalls = some sampleLane := by
  norm_num [sampleCalls, sampleLane, Lane.run, Lane.step, Lane.Update, Lane.new,
    Lane.spawnStep, Lane.SpawnEnemy, Lane.SpawnProj, Lane.moveStep, Lane.cullProj,
    Lane.cullEnemy, Lane.decayTimer, Lane.collide, Lane.markClear, Motion.linear, front,
    eraseBegin]

theorem rush_run : (Lane.new 0 0 10 4).run Motion.rush rushCalls = some rushLane := by
  norm_num [rushCalls, rushLane, Lane.run, Lane.step, Lane.Update, Lane.new,
    Lane.spawnStep, Lane.SpawnEnemy, Lane.SpawnProj, Lane.moveStep, Lane.cullProj,
    Lane.cullEnemy, Lane.decayTimer, Lane.collide, Lane.markClear, Motion.rush, front,
    eraseBegin]

theorem run_timer {mv : Motion} (calls : List Call) {l r : Lane}
    (hdt : ∀ c ∈ calls, 0 ≤ c.deltaTime) (ht : l.aberrateTimer ≤ 3)
    (hr : l.run mv calls = some r) : r.aberrateTimer ≤ 3 := by
  induction calls generalizing l with
  | nil =>
    simp only [Lane.run, Option.some.injEq] at hr
    subst hr
    exact ht
  | cons c cs ih =>
    simp only [Lane.run, Option.bind_eq_some] at hr
    obtain ⟨m, hm, hrest⟩ := hr
    have hc : 0 ≤ c.deltaTime := hdt c (List.mem_cons_self c cs)
    exact ih (fun c1 h1 => hdt c1 (List.mem_cons_of_mem c h1)) (step_timer hc ht hm) hrest

/-- An `Update` on a lane that respects the bookkeeping and is clear returns. -/
theorem Update_of_clear {mv : Motion} {deltaTime totalTime random : ℚ} {l : Lane}
    (hinv : l.Inv) (hclear : l.clear = true) :
    ∃ r, l.Update mv deltaTime totalTime random = some r ∧ r.clear = true := by
  obtain ⟨i1, i2, i3⟩ := hinv
  have hd := i3 hclear
  have hlen : l.enemies.length = 0 := by omega
  have hnil : l.enemies = [] := List.length_eq_zero.mp hlen
  have hno : ¬ (random = 1 ∧ l.spawnedEnemies < l.maxEnemies) := by
    rintro ⟨-, h⟩
    omega
  have hsp : l.spawnStep random = l := by
    unfold Lane.spawnStep
    rw [if_neg hno]
  have hm : (l.afterMotion mv deltaTime totalTime random).enemies = [] := by
    simp [Lane.afterMotion, Lane.moveStep, hsp, hnil]
  obtain ⟨r, hr, -, -, -, hcl, -⟩ := resolve_no_enemy deltaTime hm
  refine ⟨r, by rw [Update_eq_resolve]; exact hr, ?_⟩
  rw [hcl, (afterMotion_fields mv deltaTime totalTime random l).2.2.1, hclear]
  rfl

/-- On the runs that return, from a lane constructed with `maxEnemies ≥ 0`, the dead
count stays within the quota. -/
theorem deadEnemies_le_maxEnemies_of_run (mv : Motion) (posX posY depth : ℚ)
    (maxEnemies : Int) (hmax : 0 ≤ maxEnemies) (calls : List Call) (l : Lane)
    (hrun : (Lane.new posX posY depth maxEnemies).run mv calls = some l) :
    l.deadEnemies ≤ l.maxEnemies := by
  obtain ⟨⟨h1, h2, -⟩, -⟩ := run_inv calls (new_inv posX posY depth hmax) hrun
  have : (0 : Int) ≤ l.enemies.length := Int.natCast_nonneg _
  omega

theorem collide_some_collideLax {enemy : Option Enemy} {proj : Option Projectile}
    {l r : Lane} (h : l.collide enemy proj = some r) : l.collideLax enemy proj = r := by
  obtain ⟨px, py, d, t, mx, sp, dd, cl, es, ps⟩ := l
  rcases enemy with _ | e <;> rcases proj with _ | p
  · simpa [Lane.collide, Lane.collideLax] using h
  · simpa [Lane.collide, Lane.collideLax] using h
  · simpa [Lane.collide, Lane.collideLax] using h
  · by_cases hc : p.depth + 2 ≥ e.depth
    · rcases es with _ | ⟨e2, es⟩ <;> rcases ps with _ | ⟨p2, ps⟩ <;>
        simp [Lane.collide, Lane.collideLax, eraseBegin, eraseBeginLax, hc] at h ⊢
      exact h
    · simpa [Lane.collide, Lane.collideLax, hc] using h

/-- Wherever `Update` returns, `UpdateLax` returns the same lane. -/
theorem Update_some_UpdateLax {mv : Motion} {deltaTime totalTime random : ℚ} {l r : Lane}
    (h : l.Update mv deltaTime totalTime random = some r) :
    l.UpdateLax mv deltaTime totalTime random = some r := by
  simp only [Lane.Update, Lane.UpdateLax, bind, Option.bind_eq_some, pure] at h ⊢
  obtain ⟨a, ha, b, hb, c, hc, hr⟩ := h
  refine ⟨a, ha, b, hb, ?_⟩
  rw [collide_some_collideLax hc]
  exact hr

/-! ## The claims -/

/-- C1 fails on the code: `lateShotLane` is reached from `Lane.new 0 0 1 1` by `Update`
and `SpawnProj` calls.  In its next `Update` the boundary block counts the only enemy
(`deadEnemies = 1`, no enemy left) and leaves the local `enemy` set; the collision test
on the stale locals succeeds (`1 + 2 ≥ -1/2`) and the block counts the same enemy
again.  With the `erase` on the empty vector returning, the `Update` ends with
`deadEnemies = 2` and `maxEnemies = 1`; with it failing, the `Update` has no result. -/
theorem deadEnemies_exceeds_maxEnemies :
    (Lane.new 0 0 1 1).run Motion.linear [.update (1 / 2) 0 1, .spawnProj]
      = some lateShotLane ∧
    ((lateShotLane.afterMotion Motion.linear 1 0 0).cullEnemy).map
        (fun b => (b.1, b.2.enemies, b.2.deadEnemies))
      = some (some { x := 0, y := 0, depth := -1 / 2 }, [], 1) ∧
    (∃ r, lateShotLane.UpdateLax Motion.linear 1 0 0 = some r ∧
      r.deadEnemies = 2 ∧ r.maxEnemies = 1 ∧ ¬ r.deadEnemies ≤ r.maxEnemies) ∧
    lateShotLane.Update Motion.linear 1 0 0 = none := by
  refine ⟨?_, ?_, ?_, ?_⟩
  · norm_num [lateShotLane, Lane.run, Lane.step, Lane.Update, Lane.new, Lane.spawnStep,
      Lane.SpawnEnemy, Lane.SpawnProj, Lane.moveStep, Lane.cullProj, Lane.cullEnemy,
      Lane.decayTimer, Lane.collide, Lane.markClear, Motion.linear, front, eraseBegin]
  · norm_num [lateShotLane, Lane.afterMotion, Lane.spawnStep, Lane.moveStep,
      Lane.cullEnemy, Motion.linear, front, eraseBegin]
  · refine ⟨{ lateShotLane with
        enemies := [], projs := [], deadEnemies := 2, aberrateTimer := 0 }, ?_, rfl, rfl,
      by decide⟩
    norm_num [lateShotLane, Lane.UpdateLax, Lane.spawnStep, Lane.SpawnEnemy,
      Lane.moveStep, Lane.cullProj, Lane.cullEnemy, Lane.decayTimer, Lane.collideLax,
      Lane.markClear, Motion.linear, front, eraseBegin, eraseBeginLax]
  · norm_num [lateShotLane, Lane.Update, Lane.spawnStep, Lane.SpawnEnemy, Lane.moveStep,
      Lane.cullProj, Lane.cullEnemy, Lane.decayTimer, Lane.collide, Lane.markClear,
      Motion.linear, front, eraseBegin]

/-- C3: on a lane whose `clear` flag is true, `SpawnEnemy`, `SpawnProj` and every
`Update` that returns leave the flag true; and when the lane was reached from the
constructor (with `maxEnemies ≥ 0`) by `Update` and `SpawnProj` calls, `Update` does
return. -/
theorem clear_is_terminal (mv : Motion) (deltaTime totalTime random : ℚ) (l : Lane)
    (hclear : l.clear = true) :
    l.SpawnEnemy.clear = true ∧
    l.SpawnProj.clear = true ∧
    (∀ r, l.Update mv deltaTime totalTime random = some r → r.clear = true) ∧
    (∀ (posX posY depth : ℚ) (maxEnemies : Int) (calls : List Call), 0 ≤ maxEnemies →
      (Lane.new posX posY depth maxEnemies).run mv calls = some l →
      ∃ r, l.Update mv deltaTime totalTime random = some r ∧ r.clear = true) := by
  refine ⟨hclear, hclear, ?_, ?_⟩
  · intro r hu
    rw [(Update_facts hu).2.2.2.2.2.1, hclear]
    rfl
  · intro posX posY depth maxEnemies calls hmax hrun
    exact Update_of_clear (run_inv calls (new_inv posX posY depth hmax) hrun).1 hclear

theorem clear_is_terminal_witness :
    sampleLane.clear = true ∧ sampleLane.SpawnEnemy.clear = true ∧
      sampleLane.SpawnProj.clear = true ∧
      ∃ r, sampleLane.Update Motion.linear 1 13 0 = some r ∧ r.clear = true :=
  ⟨rfl, (clear_is_terminal Motion.linear 1 13 0 sampleLane rfl).1,
    (clear_is_terminal Motion.linear 1 13 0 sampleLane rfl).2.1,
    (clear_is_terminal Motion.linear 1 13 0 sampleLane rfl).2.2.2 0 0 10 2 sampleCalls
      (by decide) sample_run⟩

/-- C4: from a freshly constructed lane, after every sequence of calls whose `Update`s
all have `deltaTime ≥ 0`, the aberration timer is at most 3. -/
theorem aberrateTimer_le_three (mv : Motion) (posX posY depth : ℚ) (maxEnemies : Int)
    (calls : List Call) (hdt : ∀ c ∈ calls, 0 ≤ c.deltaTime) (l : Lane)
    (hrun : (Lane.new posX posY depth maxEnemies).run mv calls = some l) :
    l.aberrateTimer ≤ 3 := by
  refine run_timer calls hdt ?_ hrun
  norm_num [Lane.new]

theorem aberrateTimer_le_three_witness :
    (Lane.new 0 0 10 4).run Motion.rush rushCalls = some rushLane ∧
      rushLane.aberrateTimer ≤ 3 :=
  ⟨rush_run,
    aberrateTimer_le_three Motion.rush 0 0 10 4 rushCalls
      (by simp [rushCalls, Call.deltaTime]) rushLane rush_run⟩

/-- C8: the spawn step of `Update` appends one enemy at the lane's position and depth,
at the end of the collection, and adds 1 to `spawnedEnemies`, exactly when the trigger
is 1 and `spawnedEnemies < maxEnemies`; otherwise it changes nothing.  An `Update`
that returns therefore adds 1 to `spawnedEnemies` exactly in that case, and without a
spawn (in particular when `spawnedEnemies = maxEnemies`) the enemy collection does not
grow.  From a lane constructed with `maxEnemies ≥ 0`, `spawnedEnemies ≤ maxEnemies`
after any sequence of calls. -/
theorem spawn_gate_and_cap (mv : Motion) (deltaTime totalTime random : ℚ) (l : Lane) :
    (random = 1 ∧ l.spawnedEnemies < l.maxEnemies →
      (l.spawnStep random).enemies
        = l.enemies ++ [Enemy.mk l.posX l.posY l.depth] ∧
      (l.spawnStep random).spawnedEnemies = l.spawnedEnemies + 1 ∧
      (l.afterMotion mv deltaTime totalTime random).enemies
        = (l.enemies ++ [Enemy.mk l.posX l.posY l.depth]).map
            (mv.enemy deltaTime totalTime)) ∧
    (¬ (random = 1 ∧ l.spawnedEnemies < l.maxEnemies) → l.spawnStep random = l) ∧
    (∀ r, l.Update mv deltaTime totalTime random = some r →
      (r.spawnedEnemies = l.spawnedEnemies + 1 ↔
        (random = 1 ∧ l.spawnedEnemies < l.maxEnemies)) ∧
      (¬ (random = 1 ∧ l.spawnedEnemies < l.maxEnemies) →
        r.spawnedEnemies = l.spawnedEnemies ∧ r.enemies.length ≤ l.enemies.length) ∧
      (l.spawnedEnemies = l.maxEnemies →
        r.spawnedEnemies = l.spawnedEnemies ∧ r.enemies.length ≤ l.enemies.length)) ∧
    (∀ (posX posY depth : ℚ) (maxEnemies : Int) (calls : List Call) (s : Lane),
      0 ≤ maxEnemies → (Lane.new posX posY depth maxEnemies).run mv calls = some s →
      s.spawnedEnemies ≤ s.maxEnemies) := by
  refine ⟨?_, ?_, ?_, ?_⟩
  · intro hc
    simp [Lane.afterMotion, Lane.moveStep, Lane.spawnStep, Lane.SpawnEnemy, hc]
  · intro hc
    unfold Lane.spawnStep
    rw [if_neg hc]
  · intro r hu
    obtain ⟨-, -, h3, h4, h5, -, -⟩ := Update_facts hu
    obtain ⟨c1, c2⟩ := spawnStep_counts random l
    rw [c1] at h3
    rw [c2] at h4
    refine ⟨?_, ?_, ?_⟩
    · constructor
      · intro h
        by_contra hc
        rw [if_neg hc] at h3
        omega
      · intro hc
        rw [if_pos hc] at h3
        exact h3
    · intro hc
      rw [if_neg hc] at h3 h4
      omega
    · intro hq
      have hc : ¬ (random = 1 ∧ l.spawnedEnemies < l.maxEnemies) := by
        rintro ⟨-, h⟩
        omega
      rw [if_neg hc] at h3 h4
      omega
  · intro posX posY depth maxEnemies calls s hmax hrun
    exact (run_inv calls (new_inv posX posY depth hmax) hrun).1.2.1

theorem spawn_gate_and_cap_witness :
    (Lane.new 0 0 5 1).Update Motion.linear 0 0 1 = some scenarioLane ∧
      (scenarioLane.spawnedEnemies = (Lane.new 0 0 5 1).spawnedEnemies + 1 ↔
        ((1 : ℚ) = 1 ∧ (Lane.new 0 0 5 1).spawnedEnemies < (Lane.new 0 0 5 1).maxEnemies)) ∧
      sampleLane.spawnedEnemies ≤ sampleLane.maxEnemies := by
  have hu : (Lane.new 0 0 5 1).Update Motion.linear 0 0 1 = some scenarioLane := by
    norm_num [scenarioLane, Lane.Update, Lane.new, Lane.spawnStep, Lane.SpawnEnemy,
      Lane.moveStep, Lane.cullProj, Lane.cullEnemy, Lane.decayTimer, Lane.collide,
      Lane.markClear, Motion.linear, front, eraseBegin]
  exact ⟨hu,
    ((spawn_gate_and_cap Motion.linear 0 0 1 (Lane.new 0 0 5 1)).2.2.1 scenarioLane hu).1,
    (spawn_gate_and_cap Motion.linear 0 0 1 (Lane.new 0 0 5 1)).2.2.2 0 0 10 2 sampleCalls
      sampleLane (by decide) sample_run⟩

/-- C6, as stated, fails: in the spec's scenario the enemy passes the boundary in an
`Update` with `deltaTime = 6`, and the timer ends at `1 - 6`, not at
`min (old timer + 1) 3 = 1`. -/
theorem boundary_exit_timer_counterexample :
    (Lane.new 0 0 5 1).Update Motion.linear 0 0 1 = some scenarioLane ∧
    scenarioLane.projs = [] ∧
    (scenarioLane.afterMotion Motion.linear 6 6 0).enemies = [{ x := 0, y := 0, depth := -1 }] ∧
    ∃ r, scenarioLane.Update Motion.linear 6 6 0 = some r ∧
      r.enemies = [] ∧ r.deadEnemies = 1 ∧ r.clear = true ∧
      r.aberrateTimer = -5 ∧ r.aberrateTimer ≠ min (scenarioLane.aberrateTimer + 1) 3 := by
  refine ⟨?_, rfl, ?_, ?_⟩
  · norm_num [scenarioLane, Lane.Update, Lane.new, Lane.spawnStep, Lane.SpawnEnemy,
      Lane.moveStep, Lane.cullProj, Lane.cullEnemy, Lane.decayTimer, Lane.collide,
      Lane.markClear, Motion.linear, front, eraseBegin]
  · norm_num [scenarioLane, Lane.afterMotion, Lane.spawnStep, Lane.moveStep, Motion.linear]
  · refine ⟨{ scenarioLane with
        enemies := [], deadEnemies := 1, clear := true, aberrateTimer := -5 }, ?_, rfl, rfl,
      rfl, rfl, ?_⟩
    · norm_num [scenarioLane, Lane.Update, Lane.spawnStep, Lane.SpawnEnemy,
        Lane.moveStep, Lane.cullProj, Lane.cullEnemy, Lane.decayTimer, Lane.collide,
        Lane.markClear, Motion.linear, front, eraseBegin]
    · norm_num [scenarioLane]

/-- C6, amended: on a lane with no projectile whose head enemy has negative depth
after the motion step, `Update` returns; it removes exactly the head enemy, adds 1 to
`deadEnemies`, sets `clear` when the new `deadEnemies` equals `maxEnemies`, and leaves
the timer at `min (old timer + 1) 3` less `deltaTime` when that capped value is
positive (at the capped value otherwise).  In the spec's scenario (`maxEnemies = 1`,
nothing dead, timer 0, a single enemy) the result has no enemy, `deadEnemies = 1`,
`clear = true` and timer `1 - deltaTime`. -/
theorem boundary_exit (mv : Motion) (deltaTime totalTime random : ℚ) (l : Lane)
    (e : Enemy) (es : List Enemy)
    (hp : l.projs = [])
    (he : (l.afterMotion mv deltaTime totalTime random).enemies = e :: es)
    (hneg : e.depth < 0) :
    ∃ r, l.Update mv deltaTime totalTime random = some r ∧
      r.enemies = es ∧ r.projs = [] ∧
      r.deadEnemies = l.deadEnemies + 1 ∧
      r.spawnedEnemies = (l.spawnStep random).spawnedEnemies ∧
      (r.deadEnemies = r.maxEnemies → r.clear = true) ∧
      (r.deadEnemies ≠ r.maxEnemies → r.clear = l.clear) ∧
      r.aberrateTimer =
        (if min (l.aberrateTimer + 1) 3 > 0 then min (l.aberrateTimer + 1) 3 - deltaTime
         else min (l.aberrateTimer + 1) 3) ∧
      (l.maxEnemies = 1 → l.deadEnemies = 0 → l.aberrateTimer = 0 → es = [] →
        r.enemies = [] ∧ r.deadEnemies = 1 ∧ r.clear = true ∧
        r.aberrateTimer = 1 - deltaTime) := by
  obtain ⟨h1, h2, h3, h4, h5, h6, -, -⟩ := afterMotion_fields mv deltaTime totalTime random l
  have hpm : (l.afterMotion mv deltaTime totalTime random).projs = [] := by
    simp [Lane.afterMotion, Lane.moveStep, (spawnStep_fields random l).2.2.2.2.2, hp]
  have hr := resolve_no_proj_cull deltaTime hpm he hneg
  rw [← Update_eq_resolve] at hr
  refine ⟨_, hr, rfl, hpm, ?_, h6, ?_, ?_, ?_, ?_⟩
  · simp [h1]
  · intro hq
    simp only [h1, h2] at hq
    simp [h1, h2, hq]
  · intro hq
    simp only [h1, h2] at hq
    simp [h1, h2, h3, hq]
  · simp only [h4, bumpTimer_eq_min, decay]
  · intro hm hd ht hes
    refine ⟨hes, by simp [h1, hd], by simp [h1, h2, hm, hd], ?_⟩
    simp only [h4, ht, bumpTimer, decay]
    norm_num

theorem boundary_exit_witness :
    ∃ r, scenarioLane.Update Motion.linear 6 6 0 = some r ∧
      r.enemies = [] ∧ r.projs = [] ∧
      r.deadEnemies = scenarioLane.deadEnemies + 1 ∧
      r.aberrateTimer = 1 - 6 := by
  have he : (scenarioLane.afterMotion Motion.linear 6 6 0).enemies
      = [{ x := 0, y := 0, depth := -1 }] := by
    norm_num [scenarioLane, Lane.afterMotion, Lane.spawnStep, Lane.moveStep, Motion.linear]
  obtain ⟨r, h1, h2, h3, h4, -, -, -, -, h9⟩ :=
    boundary_exit Motion.linear 6 6 0 scenarioLane { x := 0, y := 0, depth := -1 } [] rfl he
      (by norm_num)
  exact ⟨r, h1, h2, h3, h4, (h9 rfl rfl rfl rfl).2.2.2⟩

/-- C7: when, after the motion step, both collections are non-empty and neither head is
culled (head projectile depth `≤` lane depth, head enemy depth `≥ 0`), `Update`
returns.  If `headProjectile.depth + 2 ≥ headEnemy.depth` it removes exactly the two
heads and adds 1 to `deadEnemies`; the timer only decays (no bump), so it stays 0 when
it was 0.  If `headProjectile.depth + 2 < headEnemy.depth` nothing is removed and
`deadEnemies` is unchanged. -/
theorem head_pair_collision (mv : Motion) (deltaTime totalTime random : ℚ) (l : Lane)
    (e : Enemy) (es : List Enemy) (p : Projectile) (ps : List Projectile)
    (he : (l.afterMotion mv deltaTime totalTime random).enemies = e :: es)
    (hp : (l.afterMotion mv deltaTime totalTime random).projs = p :: ps)
    (hin : p.depth ≤ l.depth) (hpos : 0 ≤ e.depth) :
    (p.depth + 2 ≥ e.depth →
      ∃ r, l.Update mv deltaTime totalTime random = some r ∧
        r.enemies = es ∧ r.projs = ps ∧ r.deadEnemies = l.deadEnemies + 1 ∧
        r.aberrateTimer
          = (if l.aberrateTimer > 0 then l.aberrateTimer - deltaTime else l.aberrateTimer) ∧
        (l.aberrateTimer = 0 → r.aberrateTimer = 0)) ∧
    (p.depth + 2 < e.depth →
      ∃ r, l.Update mv deltaTime totalTime random = some r ∧
        r.enemies = e :: es ∧ r.projs = p :: ps ∧ r.deadEnemies = l.deadEnemies ∧
        r.aberrateTimer
          = (if l.aberrateTimer > 0 then l.aberrateTimer - deltaTime else l.aberrateTimer)) := by
  obtain ⟨h1, -, -, h4, h5, -, -, -⟩ := afterMotion_fields mv deltaTime totalTime random l
  have hr := resolve_pair deltaTime he hp (by rw [h5]; exact hin) hpos
  rw [← Update_eq_resolve] at hr
  constructor
  · intro hc
    rw [if_pos hc] at hr
    refine ⟨_, hr, rfl, rfl, by simp [h1], by simp only [h4, decay], ?_⟩
    intro ht
    simp [h4, ht, decay]
  · intro hc
    rw [if_neg (not_le.mpr hc)] at hr
    exact ⟨_, hr, he, hp, h1, by simp only [h4, decay]⟩

theorem head_pair_collision_witness :
    ∃ r, duelLane.Update Motion.linear 2 0 0 = some r ∧
      r.enemies = [] ∧ r.projs = [] ∧ r.deadEnemies = duelLane.deadEnemies + 1 ∧
      r.aberrateTimer = 0 := by
  have he : (duelLane.afterMotion Motion.linear 2 0 0).enemies
      = [{ x := 0, y := 0, depth := 4 }] := by
    norm_num [duelLane, Lane.afterMotion, Lane.spawnStep, Lane.moveStep, Motion.linear]
  have hp : (duelLane.afterMotion Motion.linear 2 0 0).projs
      = [{ x := 0, y := 0, depth := 3 }] := by
    norm_num [duelLane, Lane.afterMotion, Lane.spawnStep, Lane.moveStep, Motion.linear]
  obtain ⟨r, h1, h2, h3, h4, -, h6⟩ :=
    (head_pair_collision Motion.linear 2 0 0 duelLane { x := 0, y := 0, depth := 4 } []
      { x := 0, y := 0, depth := 3 } [] he hp (by norm_num [duelLane]) (by norm_num)).1
      (by norm_num)
  exact ⟨r, h1, h2, h3, h4, h6 rfl⟩

/-- C9: on a lane with no enemy, in an `Update` that spawns none and in which the head
projectile's depth after the motion step exceeds the lane depth, `Update` returns; it
removes exactly the head projectile and leaves `deadEnemies`, `spawnedEnemies` and the
empty enemy collection as they were. -/
theorem missed_projectile_no_enemy (mv : Motion) (deltaTime totalTime random : ℚ)
    (l : Lane) (p : Projectile) (ps : List Projectile)
    (hne : l.enemies = [])
    (hns : ¬ (random = 1 ∧ l.spawnedEnemies < l.maxEnemies))
    (hp : (l.afterMotion mv deltaTime totalTime random).projs = p :: ps)
    (hout : p.depth > l.depth) :
    ∃ r, l.Update mv deltaTime totalTime random = some r ∧
      r.projs = ps ∧ r.enemies = [] ∧
      r.deadEnemies = l.deadEnemies ∧ r.spawnedEnemies = l.spawnedEnemies := by
  obtain ⟨h1, -, -, -, h5, h6, -, -⟩ := afterMotion_fields mv deltaTime totalTime random l
  have hsp : l.spawnStep random = l := by
    unfold Lane.spawnStep
    rw [if_neg hns]
  have hm : (l.afterMotion mv deltaTime totalTime random).enemies = [] := by
    simp [Lane.afterMotion, Lane.moveStep, hsp, hne]
  obtain ⟨r, hr, r1, r2, r3, -, r5⟩ := resolve_no_enemy deltaTime hm
  rw [← Update_eq_resolve] at hr
  refine ⟨r, hr, ?_, r1, r2.trans h1, ?_⟩
  · rw [r5, hp]
    simp only [h5]
    rw [if_pos hout]
  · rw [r3, h6, hsp]

theorem missed_projectile_no_enemy_witness :
    ∃ r, missLane.Update Motion.linear 3 0 0 = some r ∧
      r.projs = [{ x := 0, y := 0, depth := 6 }] ∧ r.enemies = [] ∧
      r.deadEnemies = missLane.deadEnemies ∧ r.spawnedEnemies = missLane.spawnedEnemies := by
  have hp : (missLane.afterMotion Motion.linear 3 0 0).projs
      = [{ x := 0, y := 0, depth := 11 }, { x := 0, y := 0, depth := 6 }] := by
    norm_num [missLane, Lane.afterMotion, Lane.spawnStep, Lane.moveStep, Motion.linear]
  exact missed_projectile_no_enemy Motion.linear 3 0 0 missLane
    { x := 0, y := 0, depth := 11 } [{ x := 0, y := 0, depth := 6 }] rfl
    (by norm_num [missLane]) hp (by norm_num [missLane])

/-- C5 fails on the code: the lane `lateShotLane` is reached from the constructor, and
in its next `Update` the boundary block removes the only enemy while the local `enemy`
keeps designating it; the collision test then succeeds and `enemies.erase(begin())`
runs on the empty collection, so the `Update` has no result. -/
theorem head_removal_on_empty_collection :
    (Lane.new 0 0 1 1).run Motion.linear [.update (1 / 2) 0 1, .spawnProj]
      = some lateShotLane ∧
    (lateShotLane.afterMotion Motion.linear 1 0 0).cullProj
      = some (some { x := 0, y := 0, depth := 1 },
          lateShotLane.afterMotion Motion.linear 1 0 0) ∧
    ((lateShotLane.afterMotion Motion.linear 1 0 0).cullEnemy).map
        (fun b => (b.1, b.2.enemies))
      = some (some { x := 0, y := 0, depth := -1 / 2 }, []) ∧
    lateShotLane.Update Motion.linear 1 0 0 = none := by
  refine ⟨?_, ?_, ?_, ?_⟩
  · norm_num [lateShotLane, Lane.run, Lane.step, Lane.Update, Lane.new, Lane.spawnStep,
      Lane.SpawnEnemy, Lane.SpawnProj, Lane.moveStep, Lane.cullProj, Lane.cullEnemy,
      Lane.decayTimer, Lane.collide, Lane.markClear, Motion.linear, front, eraseBegin]
  · norm_num [lateShotLane, Lane.afterMotion, Lane.spawnStep, Lane.moveStep,
      Lane.cullProj, Motion.linear, front, eraseBegin]
  · norm_num [lateShotLane, Lane.afterMotion, Lane.spawnStep, Lane.moveStep,
      Lane.cullEnemy, Motion.linear, front, eraseBegin]
  · norm_num [lateShotLane, Lane.Update, Lane.spawnStep, Lane.SpawnEnemy, Lane.moveStep,
      Lane.cullProj, Lane.cullEnemy, Lane.decayTimer, Lane.collide, Lane.markClear,
      Motion.linear, front, eraseBegin]

/-- C10 fails on the code: on `twoShotsLane`, reached from the constructor, the next
`Update` spawns an enemy (depth 7 after motion) and culls the head projectile (depth
11 > 10); the remaining projectile (depth 3) is out of range of the enemy, yet the
collision block tests the culled projectile and removes the remaining projectile and
the enemy, counting the enemy dead. -/
theorem culled_projectile_still_collides :
    (Lane.new 0 0 10 1).run Motion.linear [.spawnProj, .update 8 0 0, .spawnProj]
      = some twoShotsLane ∧
    (twoShotsLane.afterMotion Motion.linear 3 0 1).projs
      = [{ x := 0, y := 0, depth := 11 }, { x := 0, y := 0, depth := 3 }] ∧
    (twoShotsLane.afterMotion Motion.linear 3 0 1).enemies
      = [{ x := 0, y := 0, depth := 7 }] ∧
    twoShotsLane.Update Motion.linear 3 0 1
      = some { twoShotsLane with
          enemies := [], projs := [], spawnedEnemies := 1, deadEnemies := 1,
          clear := true } := by
  refine ⟨?_, ?_, ?_, ?_⟩
  · norm_num [twoShotsLane, Lane.run, Lane.step, Lane.Update, Lane.new, Lane.spawnStep,
      Lane.SpawnEnemy, Lane.SpawnProj, Lane.moveStep, Lane.cullProj, Lane.cullEnemy,
      Lane.decayTimer, Lane.collide, Lane.markClear, Motion.linear, front, eraseBegin]
  · norm_num [twoShotsLane, Lane.afterMotion, Lane.spawnStep, Lane.SpawnEnemy,
      Lane.moveStep, Motion.linear]
  · norm_num [twoShotsLane, Lane.afterMotion, Lane.spawnStep, Lane.SpawnEnemy,
      Lane.moveStep, Motion.linear]
  · norm_num [twoShotsLane, Lane.Update, Lane.spawnStep, Lane.SpawnEnemy, Lane.moveStep,
      Lane.cullProj, Lane.cullEnemy, Lane.decayTimer, Lane.collide, Lane.markClear,
      Motion.linear, front, eraseBegin]

end GGP
